import Mathlib

/-!
Verification development for the CME analysis platform NLP core
(backend/lambda_functions/cme_nlp_processor.py together with the
reconciliation logic of backend/lambda_functions/cme_report_generator.py).

Modelling conventions:
  * Python strings are lists of characters (`Str`); `str.lower` is a
    character-wise ASCII lowercase map.
  * Python floats are rationals; every value handled by the processor is a
    short decimal literal, so rational arithmetic coincides with the float
    arithmetic the code performs at every comparison the code makes.
  * Python exceptions are modelled with `Except Str`; a `try/except`
    returning a fallback becomes a `match` on the `Except` value.
  * The subset of Python `re` used by the source (literals, `\s`,
    alternation groups, optional groups, character classes, star) is given
    a standard Brzozowski-derivative semantics; `re.search` scans every
    start position.  Apostrophes inside source string literals are written
    via `apos` (character 39).
-/

set_option linter.unusedVariables false

/-- Python strings, modelled as lists of characters. -/
abbrev Str := List Char

/-- The apostrophe character (code 39), as it appears inside several of the
source string literals. -/
def apos : Char := Char.ofNat 39

/-- Splice an apostrophe between two literal pieces: `aposJoin "let" "s"` is
the Python literal for let + apostrophe + s. -/
def aposJoin (a b : String) : Str := a.data ++ apos :: b.data

/-- Python `str.lower` (the source only ever feeds it ASCII transcript
text). -/
def lowerStr (s : Str) : Str := s.map Char.toLower

/-- Python substring containment `needle in hay`. -/
def substr (needle : Str) : Str → Bool
  | [] => needle.isEmpty
  | c :: rest => needle.isPrefixOf (c :: rest) || substr needle rest

/-- Python `sep.join` for a single-space separator. -/
def joinSpace : List Str → Str
  | [] => []
  | [w] => w
  | w :: ws => w ++ ' ' :: joinSpace ws

/-! ### A small regex engine for the subset of Python `re` the source uses -/

/-- Regular expressions: empty word, single character, character class,
concatenation, alternation, Kleene star. -/
inductive Regex where
  | eps : Regex
  | chr : Char → Regex
  | cls : List Char → Regex
  | seq : Regex → Regex → Regex
  | alt : Regex → Regex → Regex
  | star : Regex → Regex
deriving DecidableEq

/-- Does the regex accept the empty word. -/
def nullable : Regex → Bool
  | .eps => true
  | .chr _ => false
  | .cls _ => false
  | .seq a b => nullable a && nullable b
  | .alt a b => nullable a || nullable b
  | .star _ => true

/-- Brzozowski derivative of a regex by one character. -/
def rderiv : Regex → Char → Regex
  | .eps, _ => .cls []
  | .chr c, d => if c = d then .eps else .cls []
  | .cls cs, d => if d ∈ cs then .eps else .cls []
  | .seq a b, d =>
      if nullable a then .alt (.seq (rderiv a d) b) (rderiv b d)
      else .seq (rderiv a d) b
  | .alt a b, d => .alt (rderiv a d) (rderiv b d)
  | .star r, d => .seq (rderiv r d) (.star r)

/-- Does some prefix of the word match the regex. -/
def matchesPrefix (r : Regex) : Str → Bool
  | [] => nullable r
  | c :: s => nullable r || matchesPrefix (rderiv r c) s

/-- Python `re.search`: does the regex match starting at some position of
the word. -/
def reSearch (r : Regex) : Str → Bool
  | [] => nullable r
  | c :: s => matchesPrefix r (c :: s) || reSearch r s

/-- Literal word as a regex. -/
def lit : Str → Regex
  | [] => .eps
  | c :: s => .seq (.chr c) (lit s)

/-- Literal regex from a Lean string literal. -/
def litS (s : String) : Regex := lit s.data

/-- Concatenation of a list of regexes. -/
def rcat : List Regex → Regex
  | [] => .eps
  | [r] => r
  | r :: rs => .seq r (rcat rs)

/-- Optional group, Python `(?:r)?`. -/
def ropt (r : Regex) : Regex := .alt r .eps

/-- One-or-more, Python `r+`. -/
def rplus (r : Regex) : Regex := .seq r (.star r)

/-- The characters Python `\s` matches on `str` patterns (ASCII whitespace
plus the Unicode space characters). -/
def wsChars : List Char :=
  [' ', '\t', '\n', '\r', Char.ofNat 11, Char.ofNat 12,
   Char.ofNat 28, Char.ofNat 29, Char.ofNat 30, Char.ofNat 31,
   Char.ofNat 133, Char.ofNat 160, Char.ofNat 5760,
   Char.ofNat 8192, Char.ofNat 8193, Char.ofNat 8194, Char.ofNat 8195,
   Char.ofNat 8196, Char.ofNat 8197, Char.ofNat 8198, Char.ofNat 8199,
   Char.ofNat 8200, Char.ofNat 8201, Char.ofNat 8202,
   Char.ofNat 8232, Char.ofNat 8233, Char.ofNat 8239, Char.ofNat 8287,
   Char.ofNat 12288]

/-- Python `\s+`. -/
def ws1 : Regex := rplus (.cls wsChars)

/-- Python `[-\s]` (hyphen or whitespace), used by several patterns. -/
def hws : Regex := .cls ('-' :: wsChars)

/-! ### The static test taxonomy (TEST_TAXONOMY in the source) -/

/-- One taxonomy entry: lexical cues and structural pattern rules. -/
structure TestConfig where
  keywords : List Str
  patterns : List Regex
deriving DecidableEq

/-- Pattern `straight\s+leg\s+(?:raise|test)` of the straight_leg_raise
category, named so the scenario theorem can refer to it. -/
def slrRaisePattern : Regex :=
  rcat [litS "straight", ws1, litS "leg", ws1,
        .alt (litS "raise") (litS "test")]

/-- The straight_leg_raise taxonomy entry, named so witnesses can refer to
it. -/
def slrConfig : TestConfig := ⟨
  [("straight leg".data), ("slr".data), ("leg raise".data),
   ("lasegue".data), ("raise your leg".data)],
  [ -- straight\s+leg\s+(?:raise|test)
    slrRaisePattern,
    -- slr\s+test
    rcat [litS "slr", ws1, litS "test"],
    -- lasegue[(apos)s]*\s+(?:test|sign)
    rcat [litS "lasegue", .star (.cls [apos, 's']), ws1,
          .alt (litS "test") (litS "sign")]]⟩

/-- The waddells_signs taxonomy entry, named so witnesses can refer to
it. -/
def waddellsConfig : TestConfig := ⟨
  [("waddell".data), ("non-organic".data), ("behavioral".data),
   ("non organic".data)],
  [ -- waddell[(apos)s]*\s+(?:signs|test)
    rcat [litS "waddell", .star (.cls [apos, 's']), ws1,
          .alt (litS "signs") (litS "test")],
    -- non[-\s]organic\s+(?:signs|findings)
    rcat [litS "non", hws, litS "organic", ws1,
          .alt (litS "signs") (litS "findings")]]⟩

/-- The static medical test taxonomy, transcribed entry by entry from the
source table.  Each regex carries the original pattern in a comment; an
apostrophe inside a pattern is written (apos). -/
def TEST_TAXONOMY : List (Str × TestConfig) := [
  (("spine".data), ⟨
    [("spine".data), ("spinal".data), ("vertebra".data), ("vertebrae".data),
     ("back".data)],
    [ -- check\s+(?:the\s+)?spine
      rcat [litS "check", ws1, ropt (rcat [litS "the", ws1]), litS "spine"],
      -- examine\s+(?:the\s+)?back
      rcat [litS "examine", ws1, ropt (rcat [litS "the", ws1]), litS "back"],
      -- spinal\s+(?:examination|assessment)
      rcat [litS "spinal", ws1, .alt (litS "examination") (litS "assessment")]]⟩),
  (("lumbar_rom".data), ⟨
    [("lumbar".data), ("lower back".data), ("range of motion".data),
     ("rom".data), ("flexion".data), ("extension".data),
     ("bend forward".data), ("bend backward".data)],
    [ -- (?:lumbar|lower\s+back)\s+range\s+of\s+motion
      rcat [.alt (litS "lumbar") (rcat [litS "lower", ws1, litS "back"]),
            ws1, litS "range", ws1, litS "of", ws1, litS "motion"],
      -- (?:forward|backward)\s+(?:flexion|bending)
      rcat [.alt (litS "forward") (litS "backward"), ws1,
            .alt (litS "flexion") (litS "bending")],
      -- rom\s+test
      rcat [litS "rom", ws1, litS "test"]]⟩),
  (("straight_leg_raise".data), slrConfig),
  (("waddells_signs".data), waddellsConfig),
  (("cervical_rom".data), ⟨
    [("cervical".data), ("neck".data), ("rotation".data),
     ("lateral flexion".data), ("turn your head".data),
     ("neck movement".data)],
    [ -- cervical\s+(?:range\s+of\s+motion|rom)
      rcat [litS "cervical", ws1,
            .alt (rcat [litS "range", ws1, litS "of", ws1, litS "motion"])
                 (litS "rom")],
      -- neck\s+(?:rotation|flexion|movement)
      rcat [litS "neck", ws1,
            .alt (.alt (litS "rotation") (litS "flexion")) (litS "movement")],
      -- turn\s+(?:your\s+)?head
      rcat [litS "turn", ws1, ropt (rcat [litS "your", ws1]), litS "head"]]⟩),
  (("gait".data), ⟨
    [("gait".data), ("walking".data), ("ambulation".data), ("mobility".data),
     ("walk".data), ("heel-to-toe".data), ("tandem".data)],
    [ -- gait\s+(?:analysis|assessment|test)
      rcat [litS "gait", ws1,
            .alt (.alt (litS "analysis") (litS "assessment")) (litS "test")],
      -- (?:walk|walking)\s+(?:test|assessment)
      rcat [.alt (litS "walk") (litS "walking"), ws1,
            .alt (litS "test") (litS "assessment")],
      -- heel[-\s]to[-\s]toe
      rcat [litS "heel", hws, litS "to", hws, litS "toe"],
      -- tandem\s+(?:walk|gait)
      rcat [litS "tandem", ws1, .alt (litS "walk") (litS "gait")]]⟩),
  (("neurological".data), ⟨
    [("reflex".data), ("reflexes".data), ("sensation".data),
     ("sensory".data), ("motor".data), ("strength".data),
     ("muscle strength".data), ("patellar".data), ("achilles".data)],
    [ -- (?:reflex|reflexes)\s+test
      rcat [.alt (litS "reflex") (litS "reflexes"), ws1, litS "test"],
      -- (?:sensory|sensation)\s+(?:test|examination)
      rcat [.alt (litS "sensory") (litS "sensation"), ws1,
            .alt (litS "test") (litS "examination")],
      -- motor\s+(?:strength|function)
      rcat [litS "motor", ws1, .alt (litS "strength") (litS "function")],
      -- (?:patellar|achilles|bicep|tricep)\s+reflex
      rcat [.alt (.alt (litS "patellar") (litS "achilles"))
                 (.alt (litS "bicep") (litS "tricep")), ws1,
            litS "reflex"]]⟩),
  (("palpation".data), ⟨
    [("palpate".data), ("palpating".data), ("feel".data), ("touch".data),
     ("tender".data), ("tenderness".data), ("press".data)],
    [ -- (?:palpate|palpating)\s+(?:the\s+)?(?:spine|back|neck|area)
      rcat [.alt (litS "palpate") (litS "palpating"), ws1,
            ropt (rcat [litS "the", ws1]),
            .alt (.alt (litS "spine") (litS "back"))
                 (.alt (litS "neck") (litS "area"))],
      -- check\s+for\s+tenderness
      rcat [litS "check", ws1, litS "for", ws1, litS "tenderness"],
      -- feel\s+(?:the\s+)?(?:spine|muscles)
      rcat [litS "feel", ws1, ropt (rcat [litS "the", ws1]),
            .alt (litS "spine") (litS "muscles")]]⟩),
  (("orthopedic".data), ⟨
    [("orthopedic".data), ("musculoskeletal".data), ("joint".data),
     ("hip".data), ("knee".data), ("shoulder".data), ("ankle".data)],
    [ -- orthopedic\s+(?:examination|assessment|test)
      rcat [litS "orthopedic", ws1,
            .alt (.alt (litS "examination") (litS "assessment"))
                 (litS "test")],
      -- (?:hip|knee|shoulder|ankle)\s+(?:test|examination)
      rcat [.alt (.alt (litS "hip") (litS "knee"))
                 (.alt (litS "shoulder") (litS "ankle")), ws1,
            .alt (litS "test") (litS "examination")],
      -- joint\s+(?:mobility|function)
      rcat [litS "joint", ws1, .alt (litS "mobility") (litS "function")]]⟩),
  (("cognitive".data), ⟨
    [("memory".data), ("concentration".data), ("cognitive".data),
     ("mental status".data), ("orientation".data), ("recall".data)],
    [ -- cognitive\s+(?:test|assessment|function)
      rcat [litS "cognitive", ws1,
            .alt (.alt (litS "test") (litS "assessment")) (litS "function")],
      -- mental\s+status\s+exam
      rcat [litS "mental", ws1, litS "status", ws1, litS "exam"],
      -- memory\s+test
      rcat [litS "memory", ws1, litS "test"],
      -- orientation\s+(?:test|assessment)
      rcat [litS "orientation", ws1,
            .alt (litS "test") (litS "assessment")]]⟩)]

/-! ### Demeanor pattern tables -/

/-- NEGATIVE_TONE_INDICATORS, an exact-substring phrase list. -/
def NEGATIVE_TONE_INDICATORS : List Str :=
  [aposJoin "that" "s ridiculous", aposJoin "you" "re lying",
   aposJoin "i don" "t believe", aposJoin "that" "s impossible",
   ("come on".data), ("really?".data), ("seriously?".data),
   aposJoin "you" "re exaggerating", aposJoin "that doesn" "t make sense"]

/-- INTERRUPTION_PATTERNS, regexes for controlling language. -/
def INTERRUPTION_PATTERNS : List Regex :=
  [ -- stop\s+(?:talking|speaking)
    rcat [litS "stop", ws1, .alt (litS "talking") (litS "speaking")],
    -- let\s+me\s+(?:speak|talk)
    rcat [litS "let", ws1, litS "me", ws1, .alt (litS "speak") (litS "talk")],
    -- don(apos)t\s+(?:interrupt|talk)
    rcat [litS "don", .chr apos, litS "t", ws1,
          .alt (litS "interrupt") (litS "talk")],
    -- be\s+quiet
    rcat [litS "be", ws1, litS "quiet"],
    -- shut\s+up
    rcat [litS "shut", ws1, litS "up"]]

/-- DISMISSIVE_PATTERNS, regexes for dismissive language. -/
def DISMISSIVE_PATTERNS : List Regex :=
  [ -- (?:doesn(apos)t|does\s+not)\s+matter
    rcat [.alt (rcat [litS "doesn", .chr apos, litS "t"])
               (rcat [litS "does", ws1, litS "not"]), ws1, litS "matter"],
    -- not\s+important
    rcat [litS "not", ws1, litS "important"],
    -- (?:don(apos)t|do\s+not)\s+care\s+about
    rcat [.alt (rcat [litS "don", .chr apos, litS "t"])
               (rcat [litS "do", ws1, litS "not"]), ws1,
          litS "care", ws1, litS "about"],
    -- that(apos)s\s+(?:irrelevant|not\s+relevant)
    rcat [litS "that", .chr apos, litS "s", ws1,
          .alt (litS "irrelevant") (rcat [litS "not", ws1, litS "relevant"])]]

/-- The declaration phrases checked by the classifier. -/
def declarationPhrases : List Str :=
  [("now we".data), aposJoin "let" "s", ("going to".data),
   ("want to".data), ("need to".data), aposJoin "i" "m going to",
   aposJoin "i" "m checking", ("i need".data), aposJoin "we" "re going to"]

/-! ### The test intent classifier (_analyze_text_for_tests) -/

/-- A detected test declaration as built inside _analyze_text_for_tests. -/
structure Detected where
  label : Str
  timestamp : ℚ
  confidence : ℚ
  matched_text : Str
deriving DecidableEq

/-- Per-category confidence score computed by the loop body of
_analyze_text_for_tests: a lexical term (0.3 scaled by keyword-hit ratio,
capped at 1), a flat 0.7 structural term when at least one pattern rule
matches, and a 0.2 declaration-phrase bonus only when the running score is
already positive. -/
def catConfidence (text_lower : Str) (cfg : TestConfig) : ℚ :=
  let keyword_matches : ℕ := cfg.keywords.countP (fun kw => substr kw text_lower)
  let lexical : ℚ :=
    if 0 < keyword_matches then
      (3/10) * min ((keyword_matches : ℚ) / (cfg.keywords.length : ℚ)) 1
    else 0
  let pattern_matches : ℕ := cfg.patterns.countP (fun p => reSearch p text_lower)
  let structural : ℚ := if 0 < pattern_matches then lexical + 7/10 else lexical
  let has_declaration := declarationPhrases.any (fun ph => substr ph text_lower)
  if has_declaration = true ∧ 0 < structural then structural + 2/10 else structural

/-- The append performed for one taxonomy entry when the 0.5 threshold is
met: confidence is clamped to 1 and the original (non-lowercased) text is
truncated to 200 characters. -/
def emitCandidate (text text_lower : Str) (timestamp : ℚ)
    (tc : Str × TestConfig) : Option Detected :=
  if 1/2 ≤ catConfidence text_lower tc.2 then
    some ⟨tc.1, timestamp, min (catConfidence text_lower tc.2) 1, text.take 200⟩
  else none

/-- _analyze_text_for_tests: lowercase once, score every taxonomy category
independently, emit every category clearing the 0.5 threshold. -/
def _analyze_text_for_tests (text : Str) (timestamp : ℚ) : List Detected :=
  TEST_TAXONOMY.filterMap (emitCandidate text (lowerStr text) timestamp)

/-! ### Classifier lemmas -/

lemma lexTerm_bounds (k n : ℕ) :
    0 ≤ (3/10 : ℚ) * min ((k : ℚ) / (n : ℚ)) 1 ∧
      (3/10 : ℚ) * min ((k : ℚ) / (n : ℚ)) 1 ≤ 3/10 := by
  have h0 : (0 : ℚ) ≤ min ((k : ℚ) / (n : ℚ)) 1 :=
    le_min (by positivity) (by norm_num)
  have h1 : min ((k : ℚ) / (n : ℚ)) 1 ≤ 1 := min_le_right _ _
  constructor
  · exact mul_nonneg (by norm_num) h0
  · nlinarith

lemma catConfidence_nonneg (tl : Str) (cfg : TestConfig) :
    0 ≤ catConfidence tl cfg := by
  obtain ⟨h0, h3⟩ :=
    lexTerm_bounds (cfg.keywords.countP (fun kw => substr kw tl))
      cfg.keywords.length
  simp only [catConfidence]
  split_ifs <;> linarith

lemma catConfidence_ge_of_pattern (tl : Str) (cfg : TestConfig)
    (h : ∃ p ∈ cfg.patterns, reSearch p tl = true) :
    7/10 ≤ catConfidence tl cfg := by
  have hpm : 0 < cfg.patterns.countP (fun p => reSearch p tl) :=
    List.countP_pos_iff.mpr (by simpa using h)
  obtain ⟨h0, h3⟩ :=
    lexTerm_bounds (cfg.keywords.countP (fun kw => substr kw tl))
      cfg.keywords.length
  simp only [catConfidence]
  split_ifs <;> linarith

lemma catConfidence_eq_zero_of_no_signal (tl : Str) (cfg : TestConfig)
    (hkw : ∀ kw ∈ cfg.keywords, substr kw tl = false)
    (hpat : ∀ p ∈ cfg.patterns, reSearch p tl = false) :
    catConfidence tl cfg = 0 := by
  have hk : cfg.keywords.countP (fun kw => substr kw tl) = 0 :=
    List.countP_eq_zero.mpr (by simpa using hkw)
  have hp : cfg.patterns.countP (fun p => reSearch p tl) = 0 :=
    List.countP_eq_zero.mpr (by simpa using hpat)
  simp only [catConfidence, hk, hp]
  norm_num

lemma emitCandidate_eq_some_iff {text tl : Str} {ts : ℚ}
    {tc : Str × TestConfig} {d : Detected} :
    emitCandidate text tl ts tc = some d ↔
      (1/2 ≤ catConfidence tl tc.2 ∧
        d = ⟨tc.1, ts, min (catConfidence tl tc.2) 1, text.take 200⟩) := by
  unfold emitCandidate
  split_ifs with h
  · simp only [Option.some.injEq]
    exact ⟨fun he => ⟨h, he.symm⟩, fun ⟨_, he⟩ => he.symm⟩
  · simp only [false_iff, not_and]
    exact fun _ => absurd h (by simp_all)

/-- Claim C2: for every input text and timestamp and every taxonomy
category, if at least one of the category's pattern rules matches the
lowercased text then the classifier emits a candidate for that category —
the flat 0.7 structural score already clears the 0.5 threshold. -/
theorem pattern_match_always_emits (text : Str) (timestamp : ℚ)
    (label : Str) (cfg : TestConfig)
    (hmem : (label, cfg) ∈ TEST_TAXONOMY)
    (hpat : ∃ p ∈ cfg.patterns, reSearch p (lowerStr text) = true) :
    ∃ d ∈ _analyze_text_for_tests text timestamp, d.label = label := by
  have hconf := catConfidence_ge_of_pattern (lowerStr text) cfg hpat
  refine ⟨⟨label, timestamp, min (catConfidence (lowerStr text) cfg) 1,
    text.take 200⟩, ?_, rfl⟩
  unfold _analyze_text_for_tests
  refine List.mem_filterMap.mpr ⟨(label, cfg), hmem, ?_⟩
  exact emitCandidate_eq_some_iff.mpr ⟨by linarith, rfl⟩

/-- Witness for C2 at a concrete input: the straight_leg_raise pattern
matches the text straight leg raise test, so a candidate is emitted. -/
theorem pattern_match_always_emits_witness :
    ∃ d ∈ _analyze_text_for_tests ("straight leg raise test".data) 0,
      d.label = ("straight_leg_raise".data) :=
  pattern_match_always_emits ("straight leg raise test".data) 0
    ("straight_leg_raise".data) slrConfig (by decide)
    ⟨slrRaisePattern, by decide, by decide⟩

/-- Sample text used by several witnesses. -/
def sampleText : Str := ("straight leg raise test".data)

/-- The single candidate the classifier emits for `sampleText`: two of the
five straight_leg_raise keywords match (lexical 0.3 * 2/5 = 3/25) and the
first pattern rule matches (structural 0.7), giving 41/50. -/
def sampleDetected : Detected :=
  ⟨("straight_leg_raise".data), 0, 41/50, sampleText⟩

/-- Claim C3: a category with zero keyword hits and zero pattern matches is
never emitted, no matter how many declaration phrases the text contains —
the 0.2 bonus needs an already-positive score, so the score stays 0. -/
theorem no_signal_never_emits (text : Str) (timestamp : ℚ)
    (label : Str) (cfg : TestConfig)
    (hmem : (label, cfg) ∈ TEST_TAXONOMY)
    (hkw : ∀ kw ∈ cfg.keywords, substr kw (lowerStr text) = false)
    (hpat : ∀ p ∈ cfg.patterns, reSearch p (lowerStr text) = false) :
    ∀ d ∈ _analyze_text_for_tests text timestamp, d.label ≠ label := by
  intro d hd heq
  unfold _analyze_text_for_tests at hd
  obtain ⟨tc, htc, hemit⟩ := List.mem_filterMap.mp hd
  obtain ⟨hconf, hdval⟩ := emitCandidate_eq_some_iff.mp hemit
  have hlab : tc.1 = label := by rw [hdval] at heq; exact heq
  have hnodup : (TEST_TAXONOMY.map Prod.fst).Nodup := by decide
  have htceq : tc = (label, cfg) :=
    List.inj_on_of_nodup_map hnodup htc hmem hlab
  rw [htceq] at hconf
  rw [catConfidence_eq_zero_of_no_signal (lowerStr text) cfg hkw hpat] at hconf
  norm_num at hconf

/-- Witness for C3: the text of `sampleText` has no waddells_signs keyword
or pattern, so the candidate it does emit is not for waddells_signs. -/
theorem no_signal_never_emits_witness :
    sampleDetected.label ≠ ("waddells_signs".data) :=
  no_signal_never_emits sampleText 0 ("waddells_signs".data) waddellsConfig
    (by decide) (by decide) (by decide) sampleDetected
    (by with_unfolding_all decide)

/-- Claim C4: every emitted candidate has its confidence clamped into
[0, 1], and its matched text is the original (non-lowercased) input
truncated to 200 characters. -/
theorem emitted_confidence_in_unit_interval (text : Str) (timestamp : ℚ) :
    ∀ d ∈ _analyze_text_for_tests text timestamp,
      0 ≤ d.confidence ∧ d.confidence ≤ 1 ∧
        d.matched_text = text.take 200 := by
  intro d hd
  unfold _analyze_text_for_tests at hd
  obtain ⟨tc, htc, hemit⟩ := List.mem_filterMap.mp hd
  obtain ⟨hconf, hdval⟩ := emitCandidate_eq_some_iff.mp hemit
  subst hdval
  exact ⟨le_min (by linarith) (by norm_num), min_le_right _ _, rfl⟩

/-- Witness for C4 at a concrete emitted candidate. -/
theorem emitted_confidence_in_unit_interval_witness :
    0 ≤ sampleDetected.confidence ∧ sampleDetected.confidence ≤ 1 ∧
      sampleDetected.matched_text = sampleText.take 200 :=
  emitted_confidence_in_unit_interval sampleText 0 sampleDetected
    (by with_unfolding_all decide)

/-- The scenario text of claim C9. -/
def scenarioText : Str :=
  aposJoin "Now let" "s check your straight leg raise, please lie back"

/-- Claim C9: on the scenario text at timestamp 42.0 the classifier emits a
straight_leg_raise candidate with confidence at least 0.5; the keyword
straight leg matches, the pattern rule matches, and the declaration phrase
is present. -/
theorem scenario_straight_leg_raise :
    (∃ d ∈ _analyze_text_for_tests scenarioText 42,
        d.label = ("straight_leg_raise".data) ∧ 1/2 ≤ d.confidence)
    ∧ substr ("straight leg".data) (lowerStr scenarioText) = true
    ∧ reSearch slrRaisePattern (lowerStr scenarioText) = true
    ∧ substr (aposJoin "let" "s") (lowerStr scenarioText) = true := by
  refine ⟨⟨⟨("straight_leg_raise".data), 42, 1, scenarioText.take 200⟩,
    by with_unfolding_all decide, by decide, by norm_num⟩,
    by decide, by decide, by decide⟩

/-! ### The transcript data model -/

/-- A numeric JSON field as delivered in a Transcribe payload: either a
value Python float() can parse, or a malformed string which makes float()
raise ValueError. -/
inductive JNum where
  | num : ℚ → JNum
  | malformed : JNum
deriving DecidableEq

/-- Python float(d.get(key, 0)): a missing field defaults to 0, a malformed
value raises. -/
def floatOf : Option JNum → Except Str ℚ
  | none => .ok 0
  | some (.num q) => .ok q
  | some .malformed => .error ("could not convert string to float".data)

/-- Total value of a numeric field; agrees with floatOf whenever floatOf
succeeds.  Used only by spec-side definitions. -/
def jval : Option JNum → ℚ
  | none => 0
  | some (.num q) => q
  | some .malformed => 0

lemma jval_of_floatOf_ok {x : Option JNum} {q : ℚ}
    (h : floatOf x = .ok q) : jval x = q := by
  cases x with
  | none => cases h; rfl
  | some j => cases j with
    | num r => cases h; rfl
    | malformed => cases h

/-- One entry of an item's alternatives list. -/
structure AltEntry where
  content : Option Str
deriving DecidableEq

/-- One transcript item (token). -/
structure Item where
  type : Option Str
  start_time : Option JNum
  alternatives : Option (List AltEntry)
deriving DecidableEq

/-- One diarized segment. -/
structure Segment where
  speaker_label : Option Str
  start_time : Option JNum
  end_time : Option JNum
deriving DecidableEq

/-- A transcript: results.items plus results.speaker_labels.segments (a
payload with either key missing is the same as one with the empty list). -/
structure Transcript where
  items : List Item
  segments : List Segment
deriving DecidableEq

/-! ### The segment text extractor (_get_segment_text) -/

/-- item.get('alternatives', [{}])[0].get('content', ''): a missing
alternatives key defaults to one empty dict; an explicitly empty list makes
the [0] index raise. -/
def itemContent : Option (List AltEntry) → Except Str Str
  | none => .ok []
  | some [] => .error ("list index out of range".data)
  | some (a :: _) => .ok (a.content.getD [])

/-- The word-collecting loop of _get_segment_text: keep the content of
every pronunciation item whose start time lies inside the window
(inclusive on both ends). -/
def segmentWordsE (ss se : ℚ) : List Item → Except Str (List Str)
  | [] => .ok []
  | it :: rest =>
    if it.type = some ("pronunciation".data) then
      match floatOf it.start_time with
      | .error e => .error e
      | .ok t =>
        if ss ≤ t ∧ t ≤ se then
          match itemContent it.alternatives, segmentWordsE ss se rest with
          | .error e, _ => .error e
          | .ok _, .error e => .error e
          | .ok c, .ok ws => .ok (c :: ws)
        else segmentWordsE ss se rest
    else segmentWordsE ss se rest

/-- _get_segment_text: parse the segment window, collect the in-window
pronunciation words, join them with single spaces. -/
def _get_segment_text (seg : Segment) (items : List Item) : Except Str Str :=
  match floatOf seg.start_time with
  | .error e => .error e
  | .ok ss =>
    match floatOf seg.end_time with
    | .error e => .error e
    | .ok se =>
      match segmentWordsE ss se items with
      | .error e => .error e
      | .ok ws => .ok (joinSpace ws)

/-- Spec-side total content of an item (section 4.1 wording). -/
def itemContentVal : Option (List AltEntry) → Str
  | none => []
  | some [] => []
  | some (a :: _) => a.content.getD []

/-- Spec-side description of the extractor output (section 4.1 of the
spec): the contents of exactly the pronunciation items whose start time
lies in [ss, se], in item-list order. -/
def windowWords (ss se : ℚ) (items : List Item) : List Str :=
  (items.filter (fun it =>
    decide (it.type = some ("pronunciation".data) ∧
      ss ≤ jval it.start_time ∧ jval it.start_time ≤ se))).map
    (fun it => itemContentVal it.alternatives)

lemma itemContentVal_of_ok {alts : Option (List AltEntry)} {c : Str}
    (h : itemContent alts = .ok c) : itemContentVal alts = c := by
  cases alts with
  | none => cases h; rfl
  | some l => cases l with
    | nil => cases h
    | cons a r => cases h; rfl

lemma segmentWordsE_ok_eq_windowWords {ss se : ℚ} :
    ∀ {items : List Item} {ws : List Str},
      segmentWordsE ss se items = .ok ws → ws = windowWords ss se items := by
  intro items
  induction items with
  | nil => intro ws h; cases h; rfl
  | cons it rest ih =>
    intro ws h
    unfold segmentWordsE at h
    unfold windowWords
    rw [List.filter_cons]
    by_cases hty : it.type = some ("pronunciation".data)
    · rw [if_pos hty] at h
      cases hft : floatOf it.start_time with
      | error e => simp only [hft] at h; exact Except.noConfusion h
      | ok t =>
        simp only [hft] at h
        have hjv := jval_of_floatOf_ok hft
        by_cases hin : ss ≤ t ∧ t ≤ se
        · rw [if_pos hin] at h
          cases hic : itemContent it.alternatives with
          | error e => simp only [hic] at h; exact Except.noConfusion h
          | ok c =>
            cases hrest : segmentWordsE ss se rest with
            | error e => simp only [hic, hrest] at h; exact Except.noConfusion h
            | ok ws2 =>
              simp only [hic, hrest, Except.ok.injEq] at h
              subst h
              have hcond : decide (it.type = some ("pronunciation".data) ∧
                  ss ≤ jval it.start_time ∧ jval it.start_time ≤ se) = true := by
                rw [hjv]; exact decide_eq_true ⟨hty, hin⟩
              rw [hcond]
              simp only [if_true, List.map_cons]
              rw [itemContentVal_of_ok hic]
              show c :: ws2 = c :: windowWords ss se rest
              rw [ih hrest]
        · rw [if_neg hin] at h
          have hcond : decide (it.type = some ("pronunciation".data) ∧
              ss ≤ jval it.start_time ∧ jval it.start_time ≤ se) = false := by
            rw [hjv]
            exact decide_eq_false (fun hc => hin hc.2)
          rw [hcond]
          exact ih h
    · rw [if_neg hty] at h
      have hcond : decide (it.type = some ("pronunciation".data) ∧
          ss ≤ jval it.start_time ∧ jval it.start_time ≤ se) = false :=
        decide_eq_false (fun hc => hty hc.1)
      rw [hcond]
      exact ih h

/-- Claim C7: whenever the extractor returns, its output is the space-join
of exactly the pronunciation items whose start time lies in the inclusive
window, in item-list order; punctuation items are never included; an empty
item list yields the empty string rather than an error. -/
theorem segment_text_extractor_window (seg : Segment) (items : List Item)
    (ss se : ℚ) (out : Str)
    (hss : floatOf seg.start_time = .ok ss)
    (hse : floatOf seg.end_time = .ok se)
    (hok : _get_segment_text seg items = .ok out) :
    out = joinSpace (windowWords ss se items) ∧ (items = [] → out = []) := by
  unfold _get_segment_text at hok
  simp only [hss, hse] at hok
  cases hws : segmentWordsE ss se items with
  | error e => simp only [hws] at hok; exact Except.noConfusion hok
  | ok ws =>
    simp only [hws, Except.ok.injEq] at hok
    subst hok
    refine ⟨by rw [segmentWordsE_ok_eq_windowWords hws], ?_⟩
    intro hnil
    subst hnil
    cases hws
    rfl

/-- The item list used by the C7 witness: one pronunciation word inside
the window and one punctuation item. -/
def extractorItemsW : List Item :=
  [⟨some ("pronunciation".data), some (.num 1), some [⟨some ("hello".data)⟩]⟩,
   ⟨some ("punctuation".data), some (.num 2), some [⟨some (",".data)⟩]⟩]

/-- Witness for C7: on `extractorItemsW` the extractor returns just the
word hello. -/
theorem segment_text_extractor_window_witness :
    ("hello".data) = joinSpace (windowWords 0 5 extractorItemsW)
    ∧ (extractorItemsW = [] → ("hello".data) = ([] : Str)) :=
  segment_text_extractor_window
    ⟨some ("speaker_0".data), some (.num 0), some (.num 5)⟩
    extractorItemsW
    0 5 ("hello".data) (by rfl) (by rfl) (by with_unfolding_all rfl)

/-! ### detect_declared_tests -/

/-- A declared-test event as returned by detect_declared_tests (the
candidate dict extended with the speaker and the segment text). -/
structure DeclaredTest where
  label : Str
  timestamp : ℚ
  confidence : ℚ
  matched_text : Str
  speaker : Str
  transcript_text : Str
deriving DecidableEq

/-- The per-segment loop of detect_declared_tests: parse the segment
times, extract the segment text, classify it, and tag each candidate with
the speaker label (missing label defaults to unknown) and the segment
text. -/
def detectGo (items : List Item) : List Segment → Except Str (List DeclaredTest)
  | [] => .ok []
  | seg :: rest =>
    match floatOf seg.start_time with
    | .error e => .error e
    | .ok start_time =>
      match floatOf seg.end_time with
      | .error e => .error e
      | .ok _ =>
        match _get_segment_text seg items with
        | .error e => .error e
        | .ok segment_text =>
          match detectGo items rest with
          | .error e => .error e
          | .ok others =>
            .ok (((_analyze_text_for_tests segment_text start_time).map
              (fun d => ⟨d.label, d.timestamp, d.confidence, d.matched_text,
                seg.speaker_label.getD ("unknown".data), segment_text⟩)) ++ others)

/-- detect_declared_tests: the whole segment loop runs inside one
try/except, whose handler logs and returns the empty list. -/
def detect_declared_tests (t : Transcript) : List DeclaredTest :=
  match detectGo t.items t.segments with
  | .ok l => l
  | .error _ => []

/-! ### The demeanor analyzer -/

/-- The SentimentScore dict of a Comprehend response (only the Negative
polarity is ever read). -/
structure SentimentScore where
  negative : Option ℚ
deriving DecidableEq

/-- A demeanor flag.  The loop-produced flags carry no sentiment_scores
key; the holistic sentiment flag stores the oracle's score dict. -/
structure DemeanorFlag where
  flag_type : Str
  timestamp : ℚ
  transcript_excerpt : Str
  severity : Str
  description : Str
  sentiment_scores : Option SentimentScore
deriving DecidableEq

/-- _analyze_tone: exact-substring scan for negative-tone phrases (one
high-severity flag per matching indicator), then regex scans for
dismissive (medium) and aggressive (high) language. -/
def _analyze_tone (text : Str) (timestamp : ℚ) : List DemeanorFlag :=
  ((NEGATIVE_TONE_INDICATORS.filter (fun ind => substr ind (lowerStr text))).map
    (fun ind =>
      ⟨("negative_tone".data), timestamp, text.take 200, ("high".data),
       ("Negative language detected: \"".data) ++ ind ++ ("\"".data), none⟩))
  ++ ((DISMISSIVE_PATTERNS.filter (fun p => reSearch p (lowerStr text))).map
    (fun _ =>
      ⟨("dismissive".data), timestamp, text.take 200, ("medium".data),
       ("Dismissive language detected".data), none⟩))
  ++ ((INTERRUPTION_PATTERNS.filter (fun p => reSearch p (lowerStr text))).map
    (fun _ =>
      ⟨("aggressive".data), timestamp, text.take 200, ("high".data),
       ("Aggressive or controlling language detected".data), none⟩))

/-- The interruption flag appended on the (consecutive_count + 1)-th
consecutive examiner utterance. -/
def interruptionFlag (start_time : ℚ) (segment_text : Str)
    (consecutive_count : ℕ) : DemeanorFlag :=
  ⟨("interruption".data), start_time, segment_text.take 200, ("medium".data),
   ("Examiner spoke ".data) ++ (Nat.repr (consecutive_count + 1)).data
     ++ (" times consecutively".data), none⟩

/-- The per-segment loop of analyze_examiner_demeanor: parse the start
time and segment text of every segment; on examiner segments update the
consecutive-utterance counter (reset to 0 after a different speaker),
append an interruption flag from the third consecutive utterance on, and
run the lexical tone scan; remember the previous speaker. -/
def demeanorGo (items : List Item) (examLabel : Str) :
    List Segment → ℕ → Option Str → Except Str (List DemeanorFlag)
  | [], _, _ => .ok []
  | seg :: rest, c, last =>
    match floatOf seg.start_time with
    | .error e => .error e
    | .ok start =>
      match _get_segment_text seg items with
      | .error e => .error e
      | .ok stext =>
        if seg.speaker_label = some examLabel then
          if last = some examLabel then
            match demeanorGo items examLabel rest (c + 1) seg.speaker_label with
            | .error e => .error e
            | .ok rflags =>
              .ok ((if 2 ≤ c + 1 then [interruptionFlag start stext (c + 1)]
                    else []) ++ _analyze_tone stext start ++ rflags)
          else
            match demeanorGo items examLabel rest 0 seg.speaker_label with
            | .error e => .error e
            | .ok rflags => .ok (_analyze_tone stext start ++ rflags)
        else
          match demeanorGo items examLabel rest c seg.speaker_label with
          | .error e => .error e
          | .ok rflags => .ok rflags

/-- A Comprehend detect_sentiment response. -/
structure SentimentResponse where
  sentiment : Option Str
  sentimentScore : Option SentimentScore
deriving DecidableEq

/-- The external sentiment oracle: either a response or a raised error. -/
abbrev SentimentOracle := Str → Except Str SentimentResponse

/-- Two-decimal rendering of the negative score, standing in for the
Python format specifier .2f (round half up; the scores compared never sit
on a tie for the inputs the code makes). -/
def fmt2 (q : ℚ) : Str :=
  let n : ℤ := ⌊q * 100 + 1/2⌋
  let b := (n % 100).toNat
  (toString (n / 100)).data ++ '.' ::
    (if b < 10 then '0' :: (Nat.repr b).data else (Nat.repr b).data)

/-- _analyze_sentiment_comprehend: truncate to the oracle's 5000-character
limit, call it, and emit one medium negative_sentiment flag when the
reported sentiment is NEGATIVE with negative score above 0.6, timestamped
at the first segment's start (0 when there is none); any raised error is
caught and yields no flags. -/
def _analyze_sentiment_comprehend (oracle : SentimentOracle) (text : Str)
    (segments : List Segment) : List DemeanorFlag :=
  let text_sample := text.take 5000
  match oracle text_sample with
  | .error _ => []
  | .ok response =>
    let neg : ℚ := (response.sentimentScore.bind (fun sc => sc.negative)).getD 0
    if response.sentiment = some ("NEGATIVE".data) ∧ 3/5 < neg then
      match (match segments with
             | [] => Except.ok (0 : ℚ)
             | s :: _ => floatOf s.start_time) with
      | .error _ => []
      | .ok ts =>
        [⟨("negative_sentiment".data), ts, text_sample.take 200,
          ("medium".data),
          ("Overall negative sentiment detected (score: ".data) ++ fmt2 neg
            ++ (")".data),
          response.sentimentScore⟩]
    else []

/-- The list comprehension joining the text of the first ten examiner
segments. -/
def examinerTexts (items : List Item) : List Segment → Except Str (List Str)
  | [] => .ok []
  | s :: rest =>
    match _get_segment_text s items, examinerTexts items rest with
    | .error e, _ => .error e
    | .ok _, .error e => .error e
    | .ok t, .ok ts => .ok (t :: ts)

/-- analyze_examiner_demeanor: run the segment loop, then the holistic
sentiment pass over the first ten examiner segments; the whole body runs
inside one try/except whose handler logs and returns the empty list. -/
def analyze_examiner_demeanor (oracle : SentimentOracle) (t : Transcript)
    (examiner_speaker_label : Str) : List DemeanorFlag :=
  let examiner_segments := t.segments.filter
    (fun s => decide (s.speaker_label = some examiner_speaker_label))
  match demeanorGo t.items examiner_speaker_label t.segments 0 none with
  | .error _ => []
  | .ok loopFlags =>
    match examinerTexts t.items (examiner_segments.take 10) with
    | .error _ => []
    | .ok texts =>
      let examiner_text := joinSpace texts
      loopFlags ++
        (if examiner_text ≠ [] then
          _analyze_sentiment_comprehend oracle examiner_text examiner_segments
        else [])

/-! ### The processing entry point -/

/-- The result dict of process_transcript_for_cme_analysis. -/
structure ProcessResult where
  session_id : Str
  declared_tests : List DeclaredTest
  demeanor_flags : List DemeanorFlag
  processing_timestamp : ℤ
  status : Str
deriving DecidableEq

/-- process_transcript_for_cme_analysis: detect declared tests, analyze
demeanor with the default examiner label speaker_0, stamp with the wall
clock (passed here as `now`). -/
def process_transcript_for_cme_analysis (oracle : SentimentOracle) (now : ℤ)
    (session_id : Str) (transcript_data : Transcript) : ProcessResult :=
  ⟨session_id,
   detect_declared_tests transcript_data,
   analyze_examiner_demeanor oracle transcript_data ("speaker_0".data),
   now,
   ("completed".data)⟩

/-! ### Claim C5: interruption flags -/

/-- Spec-side total segment text (equal to the extractor output whenever
the extractor succeeds). -/
def segTextVal (seg : Segment) (items : List Item) : Str :=
  joinSpace (windowWords (jval seg.start_time) (jval seg.end_time) items)

lemma getSegmentText_ok_val {seg : Segment} {items : List Item} {out : Str}
    (h : _get_segment_text seg items = .ok out) :
    out = segTextVal seg items := by
  unfold _get_segment_text at h
  cases h1 : floatOf seg.start_time with
  | error e => simp only [h1] at h; exact Except.noConfusion h
  | ok ss =>
    simp only [h1] at h
    cases h2 : floatOf seg.end_time with
    | error e => simp only [h2] at h; exact Except.noConfusion h
    | ok se =>
      simp only [h2] at h
      cases h3 : segmentWordsE ss se items with
      | error e => simp only [h3] at h; exact Except.noConfusion h
      | ok ws =>
        simp only [h3, Except.ok.injEq] at h
        subst h
        unfold segTextVal
        rw [jval_of_floatOf_ok h1, jval_of_floatOf_ok h2]
        rw [segmentWordsE_ok_eq_windowWords h3]

/-- Spec-side interruption flags (section 4.3 of the spec): walk the
segment list carrying the length p of the consecutive-examiner run ending
just before the current segment; on an examiner segment, emit a flag at
its start time exactly when it is the third or later consecutive examiner
segment; any other speaker resets the run. -/
def interruptionFlagsSpec (items : List Item) (examLabel : Str) :
    ℕ → List Segment → List DemeanorFlag
  | _, [] => []
  | p, seg :: rest =>
    if seg.speaker_label = some examLabel then
      (if 2 ≤ p then
        [interruptionFlag (jval seg.start_time) (segTextVal seg items) p]
       else [])
      ++ interruptionFlagsSpec items examLabel (p + 1) rest
    else interruptionFlagsSpec items examLabel 0 rest

lemma analyze_tone_types (text : Str) (ts : ℚ) :
    ∀ f ∈ _analyze_tone text ts,
      (f.flag_type = ("negative_tone".data) ∧ f.severity = ("high".data)) ∨
      (f.flag_type = ("dismissive".data) ∧ f.severity = ("medium".data)) ∨
      (f.flag_type = ("aggressive".data) ∧ f.severity = ("high".data)) := by
  intro f hf
  unfold _analyze_tone at hf
  rcases List.mem_append.mp hf with h | h
  · rcases List.mem_append.mp h with h | h
    · obtain ⟨x, hx, rfl⟩ := List.mem_map.mp h
      exact Or.inl ⟨rfl, rfl⟩
    · obtain ⟨x, hx, rfl⟩ := List.mem_map.mp h
      exact Or.inr (Or.inl ⟨rfl, rfl⟩)
  · obtain ⟨x, hx, rfl⟩ := List.mem_map.mp h
    exact Or.inr (Or.inr ⟨rfl, rfl⟩)

lemma tone_filter_no_interruption (text : Str) (ts : ℚ) :
    (_analyze_tone text ts).filter
      (fun f => decide (f.flag_type = ("interruption".data))) = [] := by
  refine List.filter_eq_nil_iff.mpr (fun f hf hp => ?_)
  have hty := of_decide_eq_true hp
  rcases analyze_tone_types text ts f hf with ⟨h, _⟩ | ⟨h, _⟩ | ⟨h, _⟩ <;>
    rw [h] at hty <;> exact absurd hty (by decide)

lemma demeanorGo_interruptions (items : List Item) (examLabel : Str) :
    ∀ (segs : List Segment) (c p : ℕ) (last : Option Str)
      (flags : List DemeanorFlag),
      (last = some examLabel → p = c + 1) →
      (last ≠ some examLabel → p = 0) →
      demeanorGo items examLabel segs c last = .ok flags →
      flags.filter (fun f => decide (f.flag_type = ("interruption".data)))
        = interruptionFlagsSpec items examLabel p segs := by
  intro segs
  induction segs with
  | nil =>
    intro c p last flags h1 h2 hok
    cases hok
    rfl
  | cons seg rest ih =>
    intro c p last flags h1 h2 hok
    unfold demeanorGo at hok
    cases hft : floatOf seg.start_time with
    | error e => simp only [hft] at hok; exact Except.noConfusion hok
    | ok start =>
      simp only [hft] at hok
      cases hst : _get_segment_text seg items with
      | error e => simp only [hst] at hok; exact Except.noConfusion hok
      | ok stext =>
        simp only [hst] at hok
        have hstart : start = jval seg.start_time :=
          (jval_of_floatOf_ok hft).symm
        have hsv : stext = segTextVal seg items := getSegmentText_ok_val hst
        unfold interruptionFlagsSpec
        by_cases hsp : seg.speaker_label = some examLabel
        · rw [if_pos hsp] at hok ⊢
          by_cases hlast : last = some examLabel
          · rw [if_pos hlast] at hok
            have hp : p = c + 1 := h1 hlast
            cases hrec : demeanorGo items examLabel rest (c + 1)
                seg.speaker_label with
            | error e => simp only [hrec] at hok; exact Except.noConfusion hok
            | ok rflags =>
              simp only [hrec, Except.ok.injEq] at hok
              subst hok
              have hrest := ih (c + 1) (p + 1) seg.speaker_label rflags
                (fun _ => by rw [hp]) (fun hc => absurd hsp hc) hrec
              rw [List.filter_append, List.filter_append,
                  tone_filter_no_interruption, hrest]
              subst hstart
              subst hsv
              subst hp
              by_cases h2c : 2 ≤ c + 1
              · rw [if_pos h2c]
                rfl
              · rw [if_neg h2c]
                rfl
          · rw [if_neg hlast] at hok
            have hp : p = 0 := h2 hlast
            cases hrec : demeanorGo items examLabel rest 0
                seg.speaker_label with
            | error e => simp only [hrec] at hok; exact Except.noConfusion hok
            | ok rflags =>
              simp only [hrec, Except.ok.injEq] at hok
              subst hok
              have hrest := ih 0 (p + 1) seg.speaker_label rflags
                (fun _ => by rw [hp]) (fun hc => absurd hsp hc) hrec
              rw [List.filter_append, tone_filter_no_interruption, hrest]
              subst hp
              rfl
        · rw [if_neg hsp] at hok ⊢
          cases hrec : demeanorGo items examLabel rest c
              seg.speaker_label with
          | error e => simp only [hrec] at hok; exact Except.noConfusion hok
          | ok rflags =>
            simp only [hrec, Except.ok.injEq] at hok
            subst hok
            exact ih c 0 seg.speaker_label rflags
              (fun hc => absurd hc hsp) (fun _ => rfl) hrec

lemma interruptionFlagsSpec_fields (items : List Item) (examLabel : Str) :
    ∀ (p : ℕ) (segs : List Segment) (f : DemeanorFlag),
      f ∈ interruptionFlagsSpec items examLabel p segs →
      f.severity = ("medium".data) ∧ f.flag_type = ("interruption".data) := by
  intro p segs
  induction segs generalizing p with
  | nil => intro f hf; cases hf
  | cons seg rest ih =>
    intro f hf
    unfold interruptionFlagsSpec at hf
    by_cases hsp : seg.speaker_label = some examLabel
    · rw [if_pos hsp] at hf
      rcases List.mem_append.mp hf with hl | hr
      · by_cases h2c : 2 ≤ p
        · rw [if_pos h2c] at hl
          rcases List.mem_singleton.mp hl with rfl
          exact ⟨rfl, rfl⟩
        · rw [if_neg h2c] at hl
          cases hl
      · exact ih (p + 1) f hr
    · rw [if_neg hsp] at hf
      exact ih 0 f hf

/-- Claim C5: whenever the demeanor loop completes, its interruption flags
are exactly one medium-severity flag at the start time of the third and
each later consecutive examiner segment (the run length resets to 0 after
any other speaker), and never one for the first or second consecutive
examiner segment; each spec-side flag is medium. -/
theorem interruption_on_third_consecutive (t : Transcript) (examLabel : Str)
    (flags : List DemeanorFlag)
    (hok : demeanorGo t.items examLabel t.segments 0 none = .ok flags) :
    flags.filter (fun f => decide (f.flag_type = ("interruption".data)))
      = interruptionFlagsSpec t.items examLabel 0 t.segments
    ∧ ∀ f ∈ interruptionFlagsSpec t.items examLabel 0 t.segments,
        f.severity = ("medium".data) :=
  ⟨demeanorGo_interruptions t.items examLabel t.segments 0 0 none flags
      (fun h => Option.noConfusion h) (fun _ => rfl) hok,
   fun f hf => (interruptionFlagsSpec_fields t.items examLabel 0 t.segments
      f hf).1⟩

/-- Segment list for the C5 witness: four consecutive examiner segments. -/
def wSegs : List Segment :=
  [⟨some ("speaker_0".data), some (.num 1), some (.num 2)⟩,
   ⟨some ("speaker_0".data), some (.num 2), some (.num 3)⟩,
   ⟨some ("speaker_0".data), some (.num 3), some (.num 4)⟩,
   ⟨some ("speaker_0".data), some (.num 4), some (.num 5)⟩]

/-- The loop output on `wSegs` with no items: interruption flags on the
third and fourth segments only. -/
def wFlags : List DemeanorFlag :=
  [interruptionFlag 3 [] 2, interruptionFlag 4 [] 3]

/-- Witness for C5 on a four-examiner-segment transcript. -/
theorem interruption_on_third_consecutive_witness :
    wFlags.filter (fun f => decide (f.flag_type = ("interruption".data)))
      = interruptionFlagsSpec [] ("speaker_0".data) 0 wSegs
    ∧ ∀ f ∈ interruptionFlagsSpec [] ("speaker_0".data) 0 wSegs,
        f.severity = ("medium".data) :=
  interruption_on_third_consecutive ⟨[], wSegs⟩ ("speaker_0".data) wFlags
    (by with_unfolding_all rfl)

/-! ### Claim C10: every flag is medium or high -/

/-- The five flag shapes the analyzer can build. -/
def flagShapeOk (f : DemeanorFlag) : Prop :=
  (f.flag_type = ("interruption".data) ∧ f.severity = ("medium".data)) ∨
  (f.flag_type = ("negative_tone".data) ∧ f.severity = ("high".data)) ∨
  (f.flag_type = ("dismissive".data) ∧ f.severity = ("medium".data)) ∨
  (f.flag_type = ("aggressive".data) ∧ f.severity = ("high".data)) ∨
  (f.flag_type = ("negative_sentiment".data) ∧ f.severity = ("medium".data))

lemma demeanorGo_flags_shape (items : List Item) (examLabel : Str) :
    ∀ (segs : List Segment) (c : ℕ) (last : Option Str)
      (flags : List DemeanorFlag),
      demeanorGo items examLabel segs c last = .ok flags →
      ∀ f ∈ flags, flagShapeOk f := by
  intro segs
  induction segs with
  | nil =>
    intro c last flags hok f hf
    cases hok
    cases hf
  | cons seg rest ih =>
    intro c last flags hok f hf
    unfold demeanorGo at hok
    cases hft : floatOf seg.start_time with
    | error e => simp only [hft] at hok; exact Except.noConfusion hok
    | ok start =>
      simp only [hft] at hok
      cases hst : _get_segment_text seg items with
      | error e => simp only [hst] at hok; exact Except.noConfusion hok
      | ok stext =>
        simp only [hst] at hok
        by_cases hsp : seg.speaker_label = some examLabel
        · rw [if_pos hsp] at hok
          by_cases hlast : last = some examLabel
          · rw [if_pos hlast] at hok
            cases hrec : demeanorGo items examLabel rest (c + 1)
                seg.speaker_label with
            | error e => simp only [hrec] at hok; exact Except.noConfusion hok
            | ok rflags =>
              simp only [hrec, Except.ok.injEq] at hok
              subst hok
              rcases List.mem_append.mp hf with hl | hr
              · rcases List.mem_append.mp hl with hi | ht
                · by_cases h2c : 2 ≤ c + 1
                  · rw [if_pos h2c] at hi
                    rcases List.mem_singleton.mp hi with rfl
                    exact Or.inl ⟨rfl, rfl⟩
                  · rw [if_neg h2c] at hi
                    cases hi
                · rcases analyze_tone_types stext start f ht with h | h | h
                  · exact Or.inr (Or.inl h)
                  · exact Or.inr (Or.inr (Or.inl h))
                  · exact Or.inr (Or.inr (Or.inr (Or.inl h)))
              · exact ih (c + 1) seg.speaker_label rflags hrec f hr
          · rw [if_neg hlast] at hok
            cases hrec : demeanorGo items examLabel rest 0
                seg.speaker_label with
            | error e => simp only [hrec] at hok; exact Except.noConfusion hok
            | ok rflags =>
              simp only [hrec, Except.ok.injEq] at hok
              subst hok
              rcases List.mem_append.mp hf with ht | hr
              · rcases analyze_tone_types stext start f ht with h | h | h
                · exact Or.inr (Or.inl h)
                · exact Or.inr (Or.inr (Or.inl h))
                · exact Or.inr (Or.inr (Or.inr (Or.inl h)))
              · exact ih 0 seg.speaker_label rflags hrec f hr
        · rw [if_neg hsp] at hok
          cases hrec : demeanorGo items examLabel rest c
              seg.speaker_label with
          | error e => simp only [hrec] at hok; exact Except.noConfusion hok
          | ok rflags =>
            simp only [hrec, Except.ok.injEq] at hok
            subst hok
            exact ih c seg.speaker_label rflags hrec f hf

lemma sentiment_flags_shape (oracle : SentimentOracle) (text : Str)
    (segments : List Segment) :
    ∀ f ∈ _analyze_sentiment_comprehend oracle text segments,
      f.flag_type = ("negative_sentiment".data) ∧
        f.severity = ("medium".data) := by
  intro f hf
  simp only [_analyze_sentiment_comprehend] at hf
  cases ho : oracle (text.take 5000) with
  | error e => simp only [ho] at hf; cases hf
  | ok response =>
    simp only [ho] at hf
    by_cases hcond : response.sentiment = some ("NEGATIVE".data) ∧
        3/5 < ((response.sentimentScore.bind (fun sc => sc.negative)).getD 0)
    · rw [if_pos hcond] at hf
      cases hts : (match segments with
                   | [] => Except.ok (0 : ℚ)
                   | s :: _ => floatOf s.start_time) with
      | error e => simp only [hts] at hf; cases hf
      | ok ts =>
        simp only [hts] at hf
        rcases List.mem_singleton.mp hf with rfl
        exact ⟨rfl, rfl⟩
    · rw [if_neg hcond] at hf
      cases hf

lemma analyze_demeanor_flags_shape (oracle : SentimentOracle)
    (t : Transcript) (examLabel : Str) :
    ∀ f ∈ analyze_examiner_demeanor oracle t examLabel, flagShapeOk f := by
  intro f hf
  simp only [analyze_examiner_demeanor] at hf
  cases hd : demeanorGo t.items examLabel t.segments 0 none with
  | error e => simp only [hd] at hf; cases hf
  | ok loopFlags =>
    simp only [hd] at hf
    cases he : examinerTexts t.items
        ((t.segments.filter
          (fun s => decide (s.speaker_label = some examLabel))).take 10) with
    | error e => simp only [he] at hf; cases hf
    | ok texts =>
      simp only [he] at hf
      rcases List.mem_append.mp hf with hl | hr
      · exact demeanorGo_flags_shape t.items examLabel t.segments 0 none
          loopFlags hd f hl
      · by_cases hne : joinSpace texts ≠ []
        · rw [if_pos hne] at hr
          rcases sentiment_flags_shape oracle (joinSpace texts) _ f hr with
            ⟨h1, h2⟩
          exact Or.inr (Or.inr (Or.inr (Or.inr ⟨h1, h2⟩)))
        · rw [if_neg hne] at hr
          cases hr

/-- Claim C10: every flag the analyzer returns carries severity medium or
high, never low: interruption, dismissive and negative_sentiment flags are
medium, negative_tone and aggressive flags are high. -/
theorem demeanor_flag_severities (oracle : SentimentOracle) (t : Transcript)
    (examLabel : Str) :
    ∀ f ∈ analyze_examiner_demeanor oracle t examLabel,
      (f.severity = ("medium".data) ∨ f.severity = ("high".data)) ∧
      f.severity ≠ ("low".data) ∧
      ((f.flag_type = ("interruption".data) ∨
        f.flag_type = ("dismissive".data) ∨
        f.flag_type = ("negative_sentiment".data)) →
          f.severity = ("medium".data)) ∧
      ((f.flag_type = ("negative_tone".data) ∨
        f.flag_type = ("aggressive".data)) →
          f.severity = ("high".data)) := by
  intro f hf
  rcases analyze_demeanor_flags_shape oracle t examLabel f hf with
    ⟨h1, h2⟩ | ⟨h1, h2⟩ | ⟨h1, h2⟩ | ⟨h1, h2⟩ | ⟨h1, h2⟩ <;>
    refine ⟨?_, ?_, ?_, ?_⟩ <;>
    first
      | (exact Or.inl h2)
      | (exact Or.inr h2)
      | (rw [h2]; decide)
      | (intro hc
         first
           | exact h2
           | (rcases hc with hc | hc | hc <;>
               exact absurd (h1.symm.trans hc) (by decide))
           | (rcases hc with hc | hc <;>
               exact absurd (h1.symm.trans hc) (by decide)))

/-- Transcript for the C10 witness: one examiner segment whose text is the
phrase be quiet (two pronunciation items), which trips an aggressive
flag. -/
def tAggressive : Transcript :=
  ⟨[⟨some ("pronunciation".data), some (.num 1), some [⟨some ("be".data)⟩]⟩,
    ⟨some ("pronunciation".data), some (.num 2), some [⟨some ("quiet".data)⟩]⟩],
   [⟨some ("speaker_0".data), some (.num 1), some (.num 3)⟩]⟩

/-- The single aggressive flag produced on `tAggressive` (the failing
oracle contributes nothing). -/
def aggressiveFlagW : DemeanorFlag :=
  ⟨("aggressive".data), 1, ("be quiet".data), ("high".data),
   ("Aggressive or controlling language detected".data), none⟩

/-- An always-failing sentiment oracle. -/
def oracleFail : SentimentOracle := fun _ => .error ("ServiceUnavailable".data)

/-- Witness for C10 on a concrete flag. -/
theorem demeanor_flag_severities_witness :
    (aggressiveFlagW.severity = ("medium".data) ∨
      aggressiveFlagW.severity = ("high".data)) ∧
    aggressiveFlagW.severity ≠ ("low".data) ∧
    ((aggressiveFlagW.flag_type = ("interruption".data) ∨
      aggressiveFlagW.flag_type = ("dismissive".data) ∨
      aggressiveFlagW.flag_type = ("negative_sentiment".data)) →
        aggressiveFlagW.severity = ("medium".data)) ∧
    ((aggressiveFlagW.flag_type = ("negative_tone".data) ∨
      aggressiveFlagW.flag_type = ("aggressive".data)) →
        aggressiveFlagW.severity = ("high".data)) :=
  demeanor_flag_severities oracleFail tAggressive ("speaker_0".data)
    aggressiveFlagW (by with_unfolding_all decide)

/-! ### Claim C8: determinism modulo the sentiment oracle -/

lemma sentiment_filter_non_sentiment (oracle : SentimentOracle) (text : Str)
    (segments : List Segment) :
    (_analyze_sentiment_comprehend oracle text segments).filter
      (fun f => !decide (f.flag_type = ("negative_sentiment".data))) = [] := by
  refine List.filter_eq_nil_iff.mpr (fun f hf hp => ?_)
  rcases sentiment_flags_shape oracle text segments f hf with ⟨h1, _⟩
  rw [h1] at hp
  simp at hp

/-- Claim C8: the classification pass is a deterministic function of the
transcript: two runs agree on the declared-test collection, and on every
demeanor flag other than the sentiment-oracle contribution, whatever either
oracle answers and whenever they run. -/
theorem classification_deterministic (t : Transcript) (sid : Str)
    (o1 o2 : SentimentOracle) (n1 n2 : ℤ) :
    (process_transcript_for_cme_analysis o1 n1 sid t).declared_tests =
      (process_transcript_for_cme_analysis o2 n2 sid t).declared_tests
    ∧ (process_transcript_for_cme_analysis o1 n1 sid t).demeanor_flags.filter
        (fun f => !decide (f.flag_type = ("negative_sentiment".data))) =
      (process_transcript_for_cme_analysis o2 n2 sid t).demeanor_flags.filter
        (fun f => !decide (f.flag_type = ("negative_sentiment".data))) := by
  refine ⟨rfl, ?_⟩
  show (analyze_examiner_demeanor o1 t ("speaker_0".data)).filter _ =
    (analyze_examiner_demeanor o2 t ("speaker_0".data)).filter _
  simp only [analyze_examiner_demeanor]
  cases hd : demeanorGo t.items ("speaker_0".data) t.segments 0 none with
  | error e => rfl
  | ok loopFlags =>
    cases he : examinerTexts t.items
        ((t.segments.filter
          (fun s => decide (s.speaker_label = some ("speaker_0".data)))).take
          10) with
    | error e => rfl
    | ok texts =>
      rw [List.filter_append, List.filter_append]
      by_cases hne : joinSpace texts ≠ []
      · rw [if_pos hne, if_pos hne, sentiment_filter_non_sentiment,
            sentiment_filter_non_sentiment]
      · rw [if_neg hne, if_neg hne]

/-! ### Claim C1: one failing segment empties the whole pass -/

/-- Items spelling straight leg raise at seconds 10, 11, 12. -/
def slrItems : List Item :=
  [⟨some ("pronunciation".data), some (.num 10), some [⟨some ("straight".data)⟩]⟩,
   ⟨some ("pronunciation".data), some (.num 11), some [⟨some ("leg".data)⟩]⟩,
   ⟨some ("pronunciation".data), some (.num 12), some [⟨some ("raise".data)⟩]⟩]

/-- A healthy examiner segment covering the three words. -/
def goodSeg : Segment := ⟨some ("speaker_0".data), some (.num 10), some (.num 20)⟩

/-- A segment whose start_time float() cannot parse. -/
def badSeg : Segment := ⟨some ("speaker_0".data), some .malformed, some (.num 1)⟩

/-- Claim C1, refuted on the code: the try/except of both passes wraps the
entire segment loop, so one malformed segment makes the whole pass return
the empty list, discarding the detections and flags of every healthy
segment.  With the malformed segment present both passes return []; with
only the healthy segments the detector finds the straight-leg-raise
declaration and the demeanor pass finds its interruption flags. -/
theorem single_segment_failure_empties_pass :
    detect_declared_tests ⟨slrItems, [badSeg, goodSeg]⟩ = []
    ∧ detect_declared_tests ⟨slrItems, [goodSeg]⟩ ≠ []
    ∧ analyze_examiner_demeanor oracleFail ⟨[], wSegs ++ [badSeg]⟩
        ("speaker_0".data) = []
    ∧ analyze_examiner_demeanor oracleFail ⟨[], wSegs⟩
        ("speaker_0".data) = wFlags := by
  refine ⟨by with_unfolding_all rfl, ?_, by with_unfolding_all rfl,
    by with_unfolding_all rfl⟩
  with_unfolding_all decide

/-! ### Claim C6: reconciliation and discrepancy highlighting
(_generate_html_report of cme_report_generator.py) -/

/-- An observed-action record (EvidenceVerdict) as stored per declared
step; either field may be absent. -/
structure StepAction where
  motion_present : Option Str
  pose_match : Option Str
deriving DecidableEq

/-- The step_actions mapping from declared_step_id to the action record
(a Python dict, so a partial map). -/
abbrev ActionLookup := Str → Option StepAction

/-- One declared step row as read by the report (only the id takes part in
the reconciliation logic). -/
structure DeclaredStep where
  declared_step_id : Str
deriving DecidableEq

/-- The timeline rendering reads
step_actions.get(step_id, \x7b\x7d).get(motion_present, unknown). -/
def motionPresentFor (step_actions : ActionLookup) (step_id : Str) : Str :=
  match step_actions step_id with
  | none => ("unknown".data)
  | some a => a.motion_present.getD ("unknown".data)

/-- is_discrepancy = motion_present in [not_observed, brief]. -/
def is_discrepancy (step_actions : ActionLookup) (step_id : Str) : Bool :=
  decide (motionPresentFor step_actions step_id = ("not_observed".data) ∨
    motionPresentFor step_actions step_id = ("brief".data))

/-- The counting predicate of the executive-summary statistic
tests_not_performed (the lookup without default: a missing record is None
and never equals not_observed). -/
def countedNotObserved (step_actions : ActionLookup) (st : DeclaredStep) :
    Bool :=
  decide ((step_actions st.declared_step_id).bind
    (fun a => a.motion_present) = some ("not_observed".data))

/-- tests_not_performed of the executive summary. -/
def tests_not_performed (declared_steps : List DeclaredStep)
    (step_actions : ActionLookup) : ℕ :=
  (declared_steps.filter (countedNotObserved step_actions)).length

/-- Claim C6: a declared test paired with an evidence verdict is flagged
as a discrepancy exactly when the verdict's motion_present is brief or
not_observed (performed, or anything else, is not flagged); the verdict's
pose_match never influences the decision; and a declared test with no
matching verdict is rendered as unknown, is not flagged, and is not
counted among the tests not observed. -/
theorem reconciliation_discrepancy (step_actions : ActionLookup)
    (step_id : Str) :
    (∀ a, step_actions step_id = some a → ∀ mp, a.motion_present = some mp →
      (is_discrepancy step_actions step_id = true ↔
        (mp = ("brief".data) ∨ mp = ("not_observed".data))))
    ∧ (∀ acts2 a a2, step_actions step_id = some a →
        acts2 step_id = some a2 → a2.motion_present = a.motion_present →
        is_discrepancy step_actions step_id = is_discrepancy acts2 step_id)
    ∧ (step_actions step_id = none →
        motionPresentFor step_actions step_id = ("unknown".data)
        ∧ is_discrepancy step_actions step_id = false
        ∧ ∀ st : DeclaredStep, st.declared_step_id = step_id →
            countedNotObserved step_actions st = false) := by
  refine ⟨?_, ?_, ?_⟩
  · intro a ha mp hmp
    unfold is_discrepancy motionPresentFor
    rw [ha]
    simp only [hmp, Option.getD_some, decide_eq_true_eq]
    exact or_comm
  · intro acts2 a a2 ha ha2 hsame
    unfold is_discrepancy motionPresentFor
    rw [ha, ha2]
    simp only [hsame]
  · intro hnone
    have hmp : motionPresentFor step_actions step_id = ("unknown".data) := by
      unfold motionPresentFor
      rw [hnone]
    refine ⟨hmp, ?_, ?_⟩
    · unfold is_discrepancy
      rw [hmp]
      decide
    · intro st hst
      unfold countedNotObserved
      rw [hst, hnone]
      decide

/-- Action lookup for the C6 witness: step t1 has a brief verdict with a
full pose match, step t2 has no verdict. -/
def actsW : ActionLookup := fun sid =>
  if sid = ("t1".data) then
    some ⟨some ("brief".data), some ("full_match".data)⟩
  else none

/-- A declared step whose id has no verdict. -/
def stepW : DeclaredStep := ⟨("t2".data)⟩

/-- Witness for C6: the brief verdict on t1 is flagged even though its
pose fully matched, and the verdict-less t2 is unknown, unflagged and not
counted as not observed. -/
theorem reconciliation_discrepancy_witness :
    is_discrepancy actsW ("t1".data) = true
    ∧ motionPresentFor actsW ("t2".data) = ("unknown".data)
    ∧ is_discrepancy actsW ("t2".data) = false
    ∧ countedNotObserved actsW stepW = false := by
  have h1 := (reconciliation_discrepancy actsW ("t1".data)).1
    ⟨some ("brief".data), some ("full_match".data)⟩ (by decide)
    ("brief".data) rfl
  have h2 := (reconciliation_discrepancy actsW ("t2".data)).2.2 (by decide)
  exact ⟨h1.mpr (Or.inl rfl), h2.1, h2.2.1, h2.2.2 stepW rfl⟩
